import Mathlib

/-!
Shallow embedding of the Telegram music bot in `src/main.py`.

The Python string primitives used by the bot (`str.replace` with an empty
replacement, `str.startswith`, `os.path.basename`, `str.rsplit('.', 1)[0]`,
`' '.join`, the `:02d` format) are modelled over `List Char` / `String`.
External collaborators (the chat transport, the YouTube search, the yt-dlp
download pipeline, the filesystem) are modelled as environments of call
outcomes, and the handlers `play`, `button_callback`, `download_audio` and
`handle_message` are translated as functions from an environment to the
trace of externally visible actions they perform, together with whether the
handler returned normally or let an exception escape.
-/

namespace MusicBot

/-- Fuel-driven scan modelling Python `s.replace(old, "")` for a nonempty
pattern `old`: scan left to right and drop each non-overlapping occurrence
of `old`. Every step consumes exactly one unit of fuel and, when `old` is
nonempty, at least one character of `s`, so `fuel = s.length` is always
enough. -/
def stripFuel (old : List Char) : Nat → List Char → List Char
  | 0, s => s
  | _ + 1, [] => []
  | fuel + 1, c :: rest =>
    if old.isPrefixOf (c :: rest) then stripFuel old fuel ((c :: rest).drop old.length)
    else c :: stripFuel old fuel rest

/-- Python `s.replace(old, "")` (every occurrence removed), for nonempty
`old` — the only shape `main.py` uses (`"download_"` and `".mp3"`). -/
def pyReplaceDel (old s : List Char) : List Char := stripFuel old s.length s

/-- String wrapper for `pyReplaceDel`. -/
def pyReplaceDelStr (old s : String) : String := ⟨pyReplaceDel old.toList s.toList⟩

/-- Does `old` occur as a contiguous run inside `s`? -/
def hasOcc (old : List Char) : List Char → Bool
  | [] => old.isEmpty
  | c :: rest => old.isPrefixOf (c :: rest) || hasOcc old rest

/-- Python `s.startswith(p)`. -/
def pyStartsWith (p s : String) : Bool := p.toList.isPrefixOf s.toList

/-- Python `os.path.basename`: the part after the last slash. -/
def pyBasename (l : List Char) : List Char :=
  (l.reverse.takeWhile (fun c => c != '/')).reverse

/-- String wrapper for `pyBasename`. -/
def pyBasenameStr (s : String) : String := ⟨pyBasename s.toList⟩

/-- Python `s.rsplit('.', 1)[0]`: everything before the last dot, or the
whole string when there is no dot. -/
def pyRsplitDotHead (l : List Char) : List Char :=
  if l.contains '.' then ((l.reverse.dropWhile (fun c => c != '.')).drop 1).reverse
  else l

/-- Python `' '.join(args)`. -/
def joinSpace : List String → String
  | [] => ""
  | [s] => s
  | s :: rest => s ++ " " ++ joinSpace rest

/-- Python format `f"{n:02d}"` on a natural number. -/
def pyFormat02 (n : Nat) : String :=
  if n < 10 then "0" ++ Nat.repr n else Nat.repr n

/-- Zero-padding to two digits as the spec words it: the decimal rendering,
left-padded with `'0'` up to width two. Stated independently of `pyFormat02`
so the two can be compared. -/
def specPad2 (n : Nat) : String :=
  (⟨List.replicate (2 - (Nat.repr n).length) '0'⟩ : String) ++ Nat.repr n

/-- The duration formatting of `play` (main.py lines 112-114):
`minutes = duration // 60`, `seconds = duration % 60`,
`f"{minutes}:{seconds:02d}"`. -/
def durationStr (d : Nat) : String :=
  Nat.repr (d / 60) ++ ":" ++ pyFormat02 (d % 60)

/-- The record produced by `search_youtube` on success (title, duration in
seconds with default 0, canonical webpage url, thumbnail). -/
structure SearchResult where
  title : String
  duration : Nat
  url : String
  thumbnail : String
deriving DecidableEq

/-- Environment for `play`: the Search Collaborator (`search_youtube`),
returning the first result or `none`. -/
structure PlayEnv where
  search : String → Option SearchResult

/-- The reply text of the found-result message in `play`. -/
def foundMsg (r : SearchResult) : String :=
  "🎵 Found: " ++ r.title ++ "\n⏱️ Duration: " ++ durationStr r.duration ++
  "\n\nClick below to download:"

/-- Observable outcome of one `play` invocation: the prompt-for-input reply
(no search performed), a found-result reply carrying the inline-keyboard
payloads, or the no-results edit. -/
inductive PlayOutcome
  | prompt
  | found (query : String) (r : SearchResult) (text dlPayload cancelPayload : String)
  | noResults (query : String)
deriving DecidableEq

/-- `query = ' '.join(context.args) if context.args else None` (main.py
line 88). -/
def queryOf (args : List String) : Option String :=
  if args.isEmpty then none else some (joinSpace args)

/-- `play` (main.py lines 85-125): prompt when the query is falsy (`None` or
the empty string), otherwise consult the Search Collaborator and either show
the found result with the two buttons (`download_` ++ url / `cancel`) or the
no-results message. -/
def play (env : PlayEnv) (args : List String) : PlayOutcome :=
  match queryOf args with
  | none => PlayOutcome.prompt
  | some q =>
    if q = "" then PlayOutcome.prompt
    else
      match env.search q with
      | some r => PlayOutcome.found q r (foundMsg r) ("download_" ++ r.url) "cancel"
      | none => PlayOutcome.noResults q

/-- `handle_message` (main.py lines 187-192): a nonempty text that does not
start with `/` is forwarded to `play` with `context.args = [text]`. -/
def handle_message (env : PlayEnv) (text : String) : Option PlayOutcome :=
  if text ≠ "" ∧ pyStartsWith "/" text = false then some (play env [text]) else none

/-- The spec's description of `onPlay` taken over the query string itself
(spec section 4.1), used for the refinement claim C9: empty query prompts;
otherwise the search collaborator is consulted and the result is shown with
the download/cancel choice, or the no-results message is shown. -/
def onPlay_spec (env : PlayEnv) (query : String) : PlayOutcome :=
  if query = "" then PlayOutcome.prompt
  else
    match env.search query with
    | some r => PlayOutcome.found query r (foundMsg r) ("download_" ++ r.url) "cancel"
    | none => PlayOutcome.noResults query

/-- Outcome of the external `yt_dlp` extraction inside `download_audio`:
either it raises, or it yields an info record whose prepared filename
(`ydl.prepare_filename(info)`) is the string carried here. -/
inductive ExtractOutcome
  | raise
  | ok (preparedName : String)
deriving DecidableEq

/-- Environment for `download_audio`: whether `os.makedirs` succeeds, the
extraction outcome per url, and the filesystem's `os.path.exists`. -/
structure DlEnv where
  makedirsOk : Bool
  extract : String → ExtractOutcome
  fileExists : String → Bool

/-- Result of `download_audio`: the coroutine raises, or returns an
`Optional[str]`. -/
inductive DlResult
  | raised
  | ret (r : Option String)
deriving DecidableEq

/-- `filename = filename.rsplit('.', 1)[0] + '.mp3'` (main.py line 177). -/
def mp3Name (prepared : String) : String :=
  (⟨pyRsplitDotHead prepared.toList⟩ : String) ++ ".mp3"

/-- `download_audio` (main.py lines 167-184): `os.makedirs` runs before the
try block (so its failure raises); exceptions from extraction are caught and
give `None`; the prepared filename has its extension replaced by `.mp3`; the
path is returned only when `os.path.exists` holds for it, else `None`. -/
def download_audio (env : DlEnv) (url : String) : DlResult :=
  if env.makedirsOk then
    match env.extract url with
    | ExtractOutcome.raise => DlResult.ret none
    | ExtractOutcome.ok fn =>
      if env.fileExists (mp3Name fn) then DlResult.ret (some (mp3Name fn))
      else DlResult.ret none
  else DlResult.raised

/-- Externally visible actions of `button_callback`. -/
inductive Act
  | answer
  | edit (msg : String)
  | downloadCall (url : String)
  | send (title performer : String)
  | removeFile (path : String)
deriving DecidableEq

/-- Whether `button_callback` returned normally or let an exception escape
to the dispatcher. -/
inductive Outcome
  | ok
  | raised
deriving DecidableEq

/-- Trace of attempted external calls plus the final control outcome. -/
structure BResult where
  trace : List Act
  outcome : Outcome
deriving DecidableEq

/-- Environment for `button_callback`: whether `query.answer()` succeeds,
whether each `edit_message_text` succeeds, whether the open/send and the
`os.remove` succeed, and the result of the awaited `download_audio`. -/
structure Env where
  answerOk : Bool
  editOk : String → Bool
  sendOk : Bool
  removeOk : Bool
  dl : String → DlResult

def cancelMsg : String := "❌ Operation cancelled."

def dlMsg : String := "⬇️ Downloading audio... Please wait."

def successMsg : String := "✅ Audio sent successfully!"

def failMsg : String := "❌ Failed to download audio. Please try again."

def errMsg : String := "❌ An error occurred while downloading."

/-- `url = query.data.replace("download_", "")` (main.py line 138). -/
def decodePayload (data : String) : String := pyReplaceDelStr "download_" data

/-- `title=os.path.basename(audio_file).replace('.mp3', '')` (main.py
line 153). -/
def sendTitle (path : String) : String := pyReplaceDelStr ".mp3" (pyBasenameStr path)

/-- `performer="Music Bot"` (main.py line 154). -/
def sendPerformer : String := "Music Bot"

/-- The `except` clause of `button_callback` (main.py lines 163-165): log,
then edit to the generic error message — an edit that itself may raise and
then propagates. -/
def exceptClause (env : Env) (t : List Act) : BResult :=
  ⟨t ++ [Act.edit errMsg], if env.editOk errMsg then Outcome.ok else Outcome.raised⟩

/-- The `try` block of `button_callback` (main.py lines 143-165), entered
with accumulated trace `t`: await `download_audio`; on a file, open/send the
audio (title from the filename, fixed performer), delete the file, edit to
success; on `None`, edit to the download-failure message. Any exception
inside lands in `exceptClause`. -/
def tryBlock (env : Env) (t : List Act) (url : String) : BResult :=
  match env.dl url with
  | DlResult.raised => exceptClause env (t ++ [Act.downloadCall url])
  | DlResult.ret none =>
    if env.editOk failMsg then ⟨t ++ [Act.downloadCall url, Act.edit failMsg], Outcome.ok⟩
    else exceptClause env (t ++ [Act.downloadCall url, Act.edit failMsg])
  | DlResult.ret (some file) =>
    let t1 := t ++ [Act.downloadCall url, Act.send (sendTitle file) sendPerformer]
    if env.sendOk then
      if env.removeOk then
        if env.editOk successMsg then
          ⟨t1 ++ [Act.removeFile file, Act.edit successMsg], Outcome.ok⟩
        else exceptClause env (t1 ++ [Act.removeFile file, Act.edit successMsg])
      else exceptClause env (t1 ++ [Act.removeFile file])
    else exceptClause env t1

/-- `button_callback` (main.py lines 128-165): `query.answer()` runs first
and unguarded; the cancel branch edits and returns; a `download_`-tagged
payload is decoded with `str.replace`, the downloading notice is edited
(unguarded), and only then the guarded try block runs; any other payload
falls through after the answer. -/
def button_callback (env : Env) (data : String) : BResult :=
  if env.answerOk then
    if data = "cancel" then
      ⟨[Act.answer, Act.edit cancelMsg],
        if env.editOk cancelMsg then Outcome.ok else Outcome.raised⟩
    else if pyStartsWith "download_" data then
      if env.editOk dlMsg then
        tryBlock env [Act.answer, Act.edit dlMsg] (decodePayload data)
      else ⟨[Act.answer, Act.edit dlMsg], Outcome.raised⟩
    else ⟨[Act.answer], Outcome.ok⟩
  else ⟨[Act.answer], Outcome.raised⟩

/-- The spec's reading of the sent title (claim C6): the base name with only
the trailing extension stripped. -/
def specTitleExtStrip (path : String) : String :=
  ⟨pyRsplitDotHead (pyBasenameStr path).toList⟩

/-- Search environment that finds nothing. -/
def env0 : PlayEnv := ⟨fun _ => none⟩

/-- A concrete search result. -/
def resA : SearchResult := ⟨"Believer", 204, "https://y/x", ""⟩

/-- Search environment that always finds `resA`. -/
def env1 : PlayEnv := ⟨fun _ => some resA⟩

/-- Callback environment where every external call succeeds and the
download returns `None`. -/
def envStd : Env := ⟨true, fun _ => true, true, true, fun _ => DlResult.ret none⟩

/-- Callback environment where the download stages a file and the send step
raises. -/
def envLeak : Env :=
  ⟨true, fun _ => true, false, true, fun _ => DlResult.ret (some "downloads/a.mp3")⟩

/-- Callback environment where `query.answer()` raises. -/
def envAns : Env := ⟨false, fun _ => true, true, true, fun _ => DlResult.ret none⟩

/-- Callback environment where every call succeeds and the download stages
a file. -/
def envGood : Env :=
  ⟨true, fun _ => true, true, true, fun _ => DlResult.ret (some "downloads/a.mp3")⟩

/-- Download environment: extraction succeeds and the output file exists. -/
def dlEnvW : DlEnv := ⟨true, fun _ => ExtractOutcome.ok "song.webm", fun _ => true⟩

/-- Download environment: extraction raises. -/
def dlEnvR : DlEnv := ⟨true, fun _ => ExtractOutcome.raise, fun _ => true⟩

/-- Download environment: extraction succeeds but the output file is
absent. -/
def dlEnvA : DlEnv := ⟨true, fun _ => ExtractOutcome.ok "song.webm", fun _ => false⟩

theorem stripFuel_nil (old : List Char) (fuel : Nat) : stripFuel old fuel [] = [] := by
  cases fuel <;> rfl

theorem isPrefixOf_append_self (l t : List Char) : l.isPrefixOf (l ++ t) = true := by
  induction l with
  | nil => simp [List.isPrefixOf]
  | cons c l ih => simp [List.isPrefixOf, ih]

theorem isPrefixOf_refl (l : List Char) : l.isPrefixOf l = true := by
  have h := isPrefixOf_append_self l []
  rwa [List.append_nil] at h

theorem isPrefixOf_dropLast : ∀ (l m : List Char), l.isPrefixOf m = true →
    l.length < m.length → l.isPrefixOf m.dropLast = true := by
  intro l
  induction l with
  | nil => intro m _ _; simp [List.isPrefixOf]
  | cons a as ih =>
    intro m hp hl
    cases m with
    | nil => simp [List.isPrefixOf] at hp
    | cons b bs =>
      cases bs with
      | nil =>
        simp only [List.length_cons, List.length_nil] at hl
        omega
      | cons b' bs' =>
        simp only [List.isPrefixOf, Bool.and_eq_true] at hp
        simp only [List.dropLast, List.isPrefixOf, Bool.and_eq_true]
        refine ⟨hp.1, ih (b' :: bs') hp.2 ?_⟩
        simp only [List.length_cons] at hl ⊢
        omega

theorem stripFuel_no_occ (old : List Char) : ∀ (fuel : Nat) (s : List Char),
    s.length ≤ fuel → hasOcc old s = false → stripFuel old fuel s = s := by
  intro fuel
  induction fuel with
  | zero => intro s _ _; rfl
  | succ f ih =>
    intro s hl ho
    cases s with
    | nil => rfl
    | cons c rest =>
      simp only [hasOcc, Bool.or_eq_false_iff] at ho
      simp only [stripFuel, ho.1, Bool.false_eq_true, if_false]
      have : rest.length ≤ f := by
        simp only [List.length_cons] at hl; omega
      rw [ih rest this ho.2]

theorem stripFuel_cons_self (old t : List Char) (fuel : Nat) (h : old ≠ []) :
    stripFuel old (fuel + 1) (old ++ t) = stripFuel old fuel t := by
  cases old with
  | nil => exact absurd rfl h
  | cons c o' =>
    have hpre : (c :: o').isPrefixOf (c :: (o' ++ t)) = true := isPrefixOf_append_self (c :: o') t
    have hd : (c :: (o' ++ t)).drop (c :: o').length = t := List.drop_left (c :: o') t
    show stripFuel (c :: o') (fuel + 1) (c :: (o' ++ t)) = stripFuel (c :: o') fuel t
    rw [stripFuel, if_pos hpre, hd]

theorem stripFuel_tail_only (old : List Char) (hne : old ≠ []) :
    ∀ (s : List Char) (fuel : Nat), s.length + old.length ≤ fuel →
    hasOcc old ((s ++ old).dropLast) = false → stripFuel old fuel (s ++ old) = s := by
  intro s
  induction s with
  | nil =>
    intro fuel hl _
    cases old with
    | nil => exact absurd rfl hne
    | cons c o' =>
      cases fuel with
      | zero => simp at hl
      | succ f =>
        have hstep : stripFuel (c :: o') (f + 1) (c :: o') = stripFuel (c :: o') f [] := by
          have h2 := stripFuel_cons_self (c :: o') [] f hne
          rwa [List.append_nil] at h2
        simp only [List.nil_append]
        rw [hstep, stripFuel_nil]
  | cons c s' ih =>
    intro fuel hl ho
    cases fuel with
    | zero => simp at hl
    | succ f =>
      have hne2 : s' ++ old ≠ [] := by
        intro h
        have := congrArg List.length h
        simp only [List.length_append, List.length_nil] at this
        have : old.length ≠ 0 := by
          intro h0; exact hne (List.length_eq_zero.mp h0)
        omega
      have hdrop : ((c :: s') ++ old).dropLast = c :: (s' ++ old).dropLast := by
        show (c :: (s' ++ old)).dropLast = c :: (s' ++ old).dropLast
        cases hsp : s' ++ old with
        | nil => exact absurd hsp hne2
        | cons d L => simp [List.dropLast]
      rw [hdrop] at ho
      simp only [hasOcc, Bool.or_eq_false_iff] at ho
      have hpf : old.isPrefixOf (c :: (s' ++ old)) = false := by
        by_contra hb
        have hb' : old.isPrefixOf (c :: (s' ++ old)) = true := by
          cases hx : old.isPrefixOf (c :: (s' ++ old))
          · exact absurd hx hb
          · rfl
        have hlen : old.length < (c :: (s' ++ old)).length := by
          simp only [List.length_cons, List.length_append]
          omega
        have := isPrefixOf_dropLast old (c :: (s' ++ old)) hb' hlen
        rw [show (c :: (s' ++ old)).dropLast = c :: (s' ++ old).dropLast from hdrop] at this
        rw [this] at ho
        exact absurd ho.1 (by simp)
      show stripFuel old (f + 1) (c :: (s' ++ old)) = c :: s'
      rw [stripFuel, if_neg (by simp [hpf])]
      have hlf : s'.length + old.length ≤ f := by
        simp only [List.length_cons] at hl; omega
      rw [ih f hlf ho.2]

theorem pyBasename_append (dir rest : List Char)
    (h : ∀ a ∈ rest, (a != '/') = true) :
    pyBasename (dir ++ ('/' :: rest)) = rest := by
  unfold pyBasename
  have hrev : (dir ++ ('/' :: rest)).reverse = rest.reverse ++ ('/' :: dir.reverse) := by
    simp [List.reverse_append]
  rw [hrev]
  have hall : ∀ a ∈ rest.reverse, (a != '/') = true := by
    intro a ha
    exact h a (List.mem_reverse.mp ha)
  rw [List.takeWhile_append_of_pos hall]
  have : List.takeWhile (fun c => c != '/') ('/' :: dir.reverse) = [] := by
    simp [List.takeWhile_cons]
  rw [this, List.append_nil, List.reverse_reverse]

/-- Helper characterising when `play` replies with the prompt: exactly when
the argument list is empty or joins to the empty string. -/
theorem play_prompt_iff (env : PlayEnv) (args : List String) :
    play env args = PlayOutcome.prompt ↔ (args = [] ∨ joinSpace args = "") := by
  unfold play queryOf
  cases args with
  | nil => simp
  | cons a as =>
    simp only [List.isEmpty_cons, Bool.false_eq_true, if_false]
    by_cases hq : joinSpace (a :: as) = ""
    · simp [hq]
    · cases hres : env.search (joinSpace (a :: as)) <;> simp [hq, hres]

/-- C2 counterexample: the payload encoding does not round-trip on every URL
string. For the URL `"zdownload_a"`, encoding with the `download_` tag and
decoding with `str.replace` (which removes every occurrence of the tag, not
just the leading one) yields `"za"`, not the original URL. -/
theorem c2_counterexample :
    decodePayload ("download_" ++ "zdownload_a") = "za" ∧
    decodePayload ("download_" ++ "zdownload_a") ≠ "zdownload_a" := by
  constructor <;> decide

/-- C2 (amended): for every URL string `u` that does not contain
`"download_"` as a substring, encoding the download choice as
`"download_" ++ u` and decoding it with `data.replace("download_", "")`
yields exactly `u`. -/
theorem c2_payload_roundtrip (u : String)
    (h : hasOcc "download_".toList u.toList = false) :
    decodePayload ("download_" ++ u) = u := by
  obtain ⟨ul⟩ := u
  unfold decodePayload pyReplaceDelStr pyReplaceDel
  have hlist : ("download_" ++ (⟨ul⟩ : String)).toList = "download_".toList ++ ul := by
    simp [String.toList]
  rw [hlist]
  have h9 : ("download_".toList).length = 9 := by decide
  have hlen : ("download_".toList ++ ul).length = (ul.length + 8) + 1 := by
    rw [List.length_append, h9]; omega
  rw [hlen]
  rw [stripFuel_cons_self "download_".toList ul (ul.length + 8) (by decide)]
  rw [stripFuel_no_occ "download_".toList (ul.length + 8) ul (by omega) h]

/-- Witness for `c2_payload_roundtrip` at the concrete URL
`"https://y/abc"`. -/
theorem c2_payload_roundtrip_witness :
    hasOcc "download_".toList "https://y/abc".toList = false ∧
    decodePayload ("download_" ++ "https://y/abc") = "https://y/abc" :=
  ⟨by decide, c2_payload_roundtrip "https://y/abc" (by decide)⟩

/-- C3 counterexample: the whitespace-only query `" "` arriving as a plain
text message is forwarded to `play` as the single nonempty argument
`[" "]`, so `play` does invoke the Search Collaborator with `" "` instead
of replying with the prompt: under the finds-nothing environment the
outcome is the no-results edit, and under the finds-`resA` environment it
is the found-result reply — both depend on the search call and neither is
the prompt. -/
theorem c3_counterexample :
    handle_message env0 " " = some (PlayOutcome.noResults " ") ∧
    handle_message env1 " " =
      some (PlayOutcome.found " " resA (foundMsg resA)
        ("download_" ++ resA.url) "cancel") ∧
    handle_message env0 " " ≠ some PlayOutcome.prompt := by
  refine ⟨by decide, by decide, by decide⟩

/-- C3 (amended): `play` skips the Search Collaborator and replies with the
prompt exactly when the argument list is empty or joins to the empty string
(Python falsiness of the query); in that case the outcome is independent of
the search environment. A whitespace-only query forwarded from a plain
message is a nonempty single argument and is searched. -/
theorem c3_prompt_iff (env env' : PlayEnv) (args : List String) :
    (play env args = PlayOutcome.prompt ↔ (args = [] ∨ joinSpace args = "")) ∧
    (play env args = PlayOutcome.prompt → play env args = play env' args) := by
  refine ⟨play_prompt_iff env args, fun hp => ?_⟩
  have h2 := (play_prompt_iff env' args).mpr ((play_prompt_iff env args).mp hp)
  rw [hp, h2]

/-- Witness for `c3_prompt_iff` at the empty argument list. -/
theorem c3_prompt_iff_witness :
    play env0 [] = PlayOutcome.prompt ∧ play env0 [] = play env1 [] :=
  ⟨(c3_prompt_iff env0 env1 []).1.mpr (Or.inl rfl),
   (c3_prompt_iff env0 env1 []).2 ((c3_prompt_iff env0 env1 []).1.mpr (Or.inl rfl))⟩

/-- C4: the displayed duration string equals the decimal rendering of
`d / 60`, then `":"`, then `d % 60` zero-padded to two digits; in
particular `125` renders as `"2:05"` and `0` renders as `"0:00"`. -/
theorem c4_duration_format (d : Nat) :
    durationStr d = Nat.repr (d / 60) ++ ":" ++ specPad2 (d % 60) ∧
    durationStr 125 = "2:05" ∧ durationStr 0 = "0:00" := by
  refine ⟨?_, by decide, by decide⟩
  have key : ∀ n, n < 60 → pyFormat02 n = specPad2 n := by decide
  have h60 : d % 60 < 60 := Nat.mod_lt d (by decide)
  unfold durationStr
  rw [key (d % 60) h60]

/-- Helper: with a working error-message edit, the whole try block of
`button_callback` completes normally, whatever the download, send, removal
and success/failure edits do. -/
theorem tryBlock_outcome_ok (env : Env) (t : List Act) (url : String)
    (h : env.editOk errMsg = true) : (tryBlock env t url).outcome = Outcome.ok := by
  cases hdl : env.dl url with
  | raised => simp [tryBlock, exceptClause, hdl, h]
  | ret o =>
    cases o with
    | none =>
      by_cases hf : env.editOk failMsg <;> simp [tryBlock, exceptClause, hdl, hf, h]
    | some f =>
      by_cases hs : env.sendOk
      · by_cases hr : env.removeOk
        · by_cases he : env.editOk successMsg <;>
            simp [tryBlock, exceptClause, hdl, hs, hr, he, h]
        · simp [tryBlock, exceptClause, hdl, hs, hr, h]
      · simp [tryBlock, exceptClause, hdl, hs, h]

/-- C1: evidence for the resource-cleanup bug. In the environment where the
download stages `downloads/a.mp3` and the send step raises, the handler
reaches the send step (the send action is in the trace) but never performs
the file-deletion call: `os.remove` sits after `send_audio` inside the
`try` with no `finally`, so the exception jumps to the `except` clause and
the staged file is left behind. -/
theorem c1_send_failure_skips_delete :
    Act.send "a" sendPerformer ∈ (button_callback envLeak "download_u").trace ∧
    (∀ f, Act.removeFile f ∉ (button_callback envLeak "download_u").trace) ∧
    (button_callback envLeak "download_u").outcome = Outcome.ok := by
  have h : button_callback envLeak "download_u" =
      ⟨[Act.answer, Act.edit dlMsg, Act.downloadCall "u",
        Act.send "a" sendPerformer, Act.edit errMsg], Outcome.ok⟩ := by decide
  refine ⟨?_, ?_, ?_⟩
  · rw [h]; decide
  · intro f; rw [h]; simp
  · rw [h]

/-- C5 counterexample: not every exception during choice handling is caught
by the handler. `query.answer()` runs before the `try` block; when it
raises, the exception escapes `button_callback` (even for the `cancel`
payload). -/
theorem c5_counterexample :
    (button_callback envAns "cancel").outcome = Outcome.raised := by decide

/-- C5 (amended): only exceptions raised inside the try block around the
download-and-send section are caught. Provided the calls outside the try —
the acknowledgement, the cancel edit, the downloading-notice edit — and the
error-message edit of the except clause succeed, the handler returns
normally for every payload and every behaviour of the download, send,
removal and remaining edits. -/
theorem c5_try_section_caught (env : Env) (data : String)
    (h1 : env.answerOk = true) (h2 : env.editOk cancelMsg = true)
    (h3 : env.editOk dlMsg = true) (h4 : env.editOk errMsg = true) :
    (button_callback env data).outcome = Outcome.ok := by
  unfold button_callback
  rw [h1]
  by_cases hc : data = "cancel"
  · simp [hc, h2]
  · by_cases hd : pyStartsWith "download_" data
    · simp [hc, hd, h3, tryBlock_outcome_ok env _ _ h4]
    · simp [hc, hd]

/-- Witness for `c5_try_section_caught` in the all-succeeding environment
with the `cancel` payload. -/
theorem c5_try_section_caught_witness :
    (button_callback envStd "cancel").outcome = Outcome.ok :=
  c5_try_section_caught envStd "cancel" rfl rfl rfl rfl

/-- C7: on a download failure (the collaborator returns `None`) the handler
performs no file-deletion call and ends by editing the status message to
the download-failure notice, returning normally. -/
theorem c7_download_failure (env : Env) (data : String)
    (h1 : env.answerOk = true) (h2 : env.editOk dlMsg = true)
    (h3 : env.editOk failMsg = true)
    (hd : pyStartsWith "download_" data = true)
    (hfail : env.dl (decodePayload data) = DlResult.ret none) :
    button_callback env data =
      ⟨[Act.answer, Act.edit dlMsg, Act.downloadCall (decodePayload data),
        Act.edit failMsg], Outcome.ok⟩ ∧
    ∀ f, Act.removeFile f ∉ (button_callback env data).trace := by
  have hc : ¬ (data = "cancel") := by
    intro e; subst e; exact absurd hd (by decide)
  have h : button_callback env data =
      ⟨[Act.answer, Act.edit dlMsg, Act.downloadCall (decodePayload data),
        Act.edit failMsg], Outcome.ok⟩ := by
    unfold button_callback
    rw [h1]
    simp [hc, hd, h2, tryBlock, hfail, h3]
  exact ⟨h, by intro f; rw [h]; simp⟩

/-- Witness for `c7_download_failure` in the all-succeeding environment
whose download returns `None`, with payload `"download_u"`. -/
theorem c7_download_failure_witness :
    button_callback envStd "download_u" =
      ⟨[Act.answer, Act.edit dlMsg, Act.downloadCall (decodePayload "download_u"),
        Act.edit failMsg], Outcome.ok⟩ :=
  (c7_download_failure envStd "download_u" rfl rfl rfl (by decide) rfl).1

/-- C8: on the `cancel` payload the handler acknowledges, edits the message
to the cancellation notice and stops: the trace is exactly those two
actions, so in particular no download-collaborator call (and no search
call, which `button_callback` cannot even emit) occurs. -/
theorem c8_cancel_short_circuit (env : Env)
    (h1 : env.answerOk = true) (h2 : env.editOk cancelMsg = true) :
    button_callback env "cancel" = ⟨[Act.answer, Act.edit cancelMsg], Outcome.ok⟩ ∧
    ∀ u, Act.downloadCall u ∉ (button_callback env "cancel").trace := by
  have h : button_callback env "cancel" =
      ⟨[Act.answer, Act.edit cancelMsg], Outcome.ok⟩ := by
    unfold button_callback
    rw [h1]
    simp [h2]
  exact ⟨h, by intro u; rw [h]; simp⟩

/-- Witness for `c8_cancel_short_circuit` in the all-succeeding
environment. -/
theorem c8_cancel_short_circuit_witness :
    button_callback envStd "cancel" = ⟨[Act.answer, Act.edit cancelMsg], Outcome.ok⟩ :=
  (c8_cancel_short_circuit envStd rfl rfl).1

/-- C6 counterexample: the sent title is not always the base name with only
the trailing extension stripped. The staged path `downloads/a.mp3.mp3` (as
produced for a video titled `a.mp3`) gets title
`basename.replace('.mp3','')` = `"a"`, while stripping only the trailing
extension of the base name gives `"a.mp3"`. -/
theorem c6_counterexample :
    sendTitle "downloads/a.mp3.mp3" = "a" ∧
    specTitleExtStrip "downloads/a.mp3.mp3" = "a.mp3" ∧
    sendTitle "downloads/a.mp3.mp3" ≠ specTitleExtStrip "downloads/a.mp3.mp3" := by
  refine ⟨by decide, by decide, by decide⟩

/-- C6 (amended): for every staged path whose base name contains `.mp3`
only as its trailing extension (no occurrence before the final one), the
display title is the base name with that extension stripped, and the
performer label is the fixed string `"Music Bot"`. In general the code
removes every occurrence of `.mp3` from the base name. -/
theorem c6_title_amended (dir name : List Char)
    (hs : ∀ a ∈ name, (a != '/') = true)
    (h1 : hasOcc ".mp3".toList ((name ++ ".mp3".toList).dropLast) = false) :
    sendTitle ⟨dir ++ ('/' :: (name ++ ".mp3".toList))⟩ = (⟨name⟩ : String) ∧
    sendPerformer = "Music Bot" := by
  constructor
  · have hb : pyBasename (dir ++ ('/' :: (name ++ ".mp3".toList))) =
        name ++ ".mp3".toList := by
      apply pyBasename_append
      intro a ha
      rcases List.mem_append.mp ha with h | h
      · exact hs a h
      · simp only [show ".mp3".toList = ['.', 'm', 'p', '3'] from rfl, List.mem_cons,
          List.not_mem_nil, or_false] at h
        rcases h with rfl | rfl | rfl | rfl <;> decide
    show (⟨pyReplaceDel ".mp3".toList
        (pyBasename (dir ++ ('/' :: (name ++ ".mp3".toList))))⟩ : String) = ⟨name⟩
    rw [hb]
    unfold pyReplaceDel
    congr 1
    exact stripFuel_tail_only ".mp3".toList (by decide) name
      ((name ++ ".mp3".toList).length)
      (Nat.le_of_eq (List.length_append name ".mp3".toList).symm) h1
  · rfl

/-- Witness for `c6_title_amended` at the staged path `downloads/song.mp3`. -/
theorem c6_title_amended_witness :
    sendTitle ⟨"downloads".toList ++ ('/' :: ("song".toList ++ ".mp3".toList))⟩ =
      (⟨"song".toList⟩ : String) ∧
    sendPerformer = "Music Bot" :=
  c6_title_amended "downloads".toList "song".toList (by decide) (by decide)

/-- C9: a nonempty plain text message that does not start with `/` is
handled exactly as the spec's `onPlay` on that text as the query: the
forwarding sets `context.args = [text]` and `' '.join([text]) = text`, so
the two produce the same outcome in every search environment. -/
theorem c9_plain_message_equiv (env : PlayEnv) (text : String)
    (h1 : text ≠ "") (h2 : pyStartsWith "/" text = false) :
    handle_message env text = some (onPlay_spec env text) := by
  unfold handle_message
  rw [if_pos ⟨h1, h2⟩]
  unfold play onPlay_spec queryOf
  simp only [List.isEmpty_cons, Bool.false_eq_true, if_false]
  have hj : joinSpace [text] = text := rfl
  rw [hj]

/-- Witness for `c9_plain_message_equiv` on the plain message `"hello"`. -/
theorem c9_plain_message_equiv_witness :
    ("hello" : String) ≠ "" ∧
    handle_message env1 "hello" = some (onPlay_spec env1 "hello") :=
  ⟨by decide, c9_plain_message_equiv env1 "hello" (by decide) (by decide)⟩

/-- C10: the contract of `download_audio`. A returned path was checked with
`os.path.exists` at the moment of return; an exception from extraction is
caught and gives `None` (given that the unguarded `os.makedirs` before the
try succeeded); and a missing output file gives `None`. -/
theorem c10_download_contract (env : DlEnv) (url : String) :
    (∀ f, download_audio env url = DlResult.ret (some f) → env.fileExists f = true) ∧
    (env.makedirsOk = true → env.extract url = ExtractOutcome.raise →
      download_audio env url = DlResult.ret none) ∧
    (∀ fn, env.makedirsOk = true → env.extract url = ExtractOutcome.ok fn →
      env.fileExists (mp3Name fn) = false → download_audio env url = DlResult.ret none) := by
  refine ⟨?_, ?_, ?_⟩
  · intro f h
    unfold download_audio at h
    by_cases hm : env.makedirsOk = true
    · rw [if_pos hm] at h
      cases hx : env.extract url with
      | raise => rw [hx] at h; exact absurd h (by simp)
      | ok fn =>
        rw [hx] at h
        by_cases he : env.fileExists (mp3Name fn) = true
        · have hf : mp3Name fn = f := by
            simp [he] at h
            exact h
          rwa [← hf]
        · simp [he] at h
    · rw [if_neg hm] at h; exact absurd h (by simp)
  · intro hm hx
    unfold download_audio
    rw [if_pos hm, hx]
  · intro fn hm hx he
    unfold download_audio
    rw [if_pos hm, hx]
    simp [he]

/-- Witness for `c10_download_contract` in the three concrete download
environments. -/
theorem c10_download_contract_witness :
    dlEnvW.fileExists "song.mp3" = true ∧
    download_audio dlEnvR "u" = DlResult.ret none ∧
    download_audio dlEnvA "u" = DlResult.ret none :=
  ⟨(c10_download_contract dlEnvW "u").1 "song.mp3" (by decide),
   (c10_download_contract dlEnvR "u").2.1 rfl rfl,
   (c10_download_contract dlEnvA "u").2.2 "song.webm" rfl rfl rfl⟩

end MusicBot
